import Mathlib

/-!
Verification of the MultiQC `rseqc/junction_annotation.py` and
`verifybamid/verifybamid.py` modules: a shallow embedding of their parsing,
derived-metric, aggregation and table-emission code, together with proofs of
the specification claims about them.

Modelling conventions:
* Python `dict`s become insertion-ordered association lists (`dictInsert`
  reproduces `d[k] = v`, `dictFind?` reproduces lookup).
* Python floats become exact rationals (`ℚ`); every arithmetic expression in
  the source is a single division and multiplication of small decimals, which
  the claims compare against the same expression, so exact arithmetic is the
  faithful level of abstraction.
* Fallible Python code (ZeroDivisionError, IndexError, KeyError, and the
  framework's non-fatal `UserWarning` signal) returns `Except PyErr`.
* `str.splitlines` is modelled for newline-separated text; the regex
  `^<literal>\s*(\d+)$` under `re.MULTILINE` is modelled line by line, with
  `\s` as intra-line whitespace (a split-out line contains no newline).
-/

namespace MultiQC

/-- Characters matched by the regex class `\s` that can occur inside a single
line (a line produced by splitting on newlines contains no `\n`). -/
def isPySpace (c : Char) : Bool :=
  c = ' ' || c = '\t' || c = '\r' || c = '\x0b' || c = '\x0c'

/-- Numeric value of a list of decimal digit characters (Python `int(...)` on
the captured digit group). -/
def digitsToNat (cs : List Char) : Nat :=
  cs.foldl (fun n c => n * 10 + (c.toNat - 48)) 0

/-- Python `str.split(sep)` for a one-character separator: always returns at
least one (possibly empty) group. -/
def splitOnChar (sep : Char) : List Char → List (List Char)
  | [] => [[]]
  | c :: cs =>
    match splitOnChar sep cs with
    | [] => [[c]]
    | g :: gs => if c = sep then [] :: g :: gs else (c :: g) :: gs

/-- Python `str.splitlines` for newline-separated text: empty text has no
lines, and a final newline does not produce a trailing empty line. -/
def pySplitlines (cs : List Char) : List (List Char) :=
  if cs = [] then []
  else
    let gs := splitOnChar '\n' cs
    if gs.getLast? = some [] then gs.dropLast else gs

/-- Python dict assignment `d[k] = v` on an insertion-ordered association
list: an existing key keeps its position and gets the new value, a new key is
appended. -/
def dictInsert {β : Type} (d : List (String × β)) (k : String) (v : β) :
    List (String × β) :=
  if d.any (fun p => p.1 == k) then
    d.map (fun p => if p.1 == k then (k, v) else p)
  else d ++ [(k, v)]

/-- Python dict lookup (`k in d` / `d[k]` combined): the value stored under
`k`, if any. -/
def dictFind? {β : Type} (d : List (String × β)) (k : String) : Option β :=
  (d.find? (fun p => p.1 == k)).map (fun p => p.2)

/-- Python exceptions reachable in the modelled code, plus the host
framework's non-fatal `UserWarning` "nothing found" signal. -/
inductive PyErr where
  | zeroDivisionError
  | indexError
  | keyError
  | userWarning
deriving DecidableEq, Repr

/-- Decidable equality of `Except` outcomes, so concrete runs of the
embedded code can be checked by `decide`. -/
instance exceptDecEq {ε α : Type} [DecidableEq ε] [DecidableEq α] :
    DecidableEq (Except ε α)
  | Except.error e, Except.error e' =>
    if h : e = e' then isTrue (by rw [h])
    else isFalse (fun hc => h (Except.error.inj hc))
  | Except.error _, Except.ok _ => isFalse (fun hc => Except.noConfusion hc)
  | Except.ok _, Except.error _ => isFalse (fun hc => Except.noConfusion hc)
  | Except.ok a, Except.ok a' =>
    if h : a = a' then isTrue (by rw [h])
    else isFalse (fun hc => h (Except.ok.inj hc))

/-- A parsed cell value: a number (Python float, modelled exactly) or the
literal string that failed numeric conversion. -/
inductive PyVal where
  | num (q : ℚ)
  | str (s : String)
deriving DecidableEq, Repr

/-- Strip the surrounding whitespace Python `float(str)` ignores. -/
def stripPySpace (cs : List Char) : List Char :=
  ((cs.dropWhile isPySpace).reverse.dropWhile isPySpace).reverse

/-- Decimal exponent suffix of a float literal: the multiplier `10 ^ e`. -/
def readExp? (cs : List Char) : Option ℚ :=
  let sg : Int × List Char :=
    match cs with
    | '+' :: t => (1, t)
    | '-' :: t => (-1, t)
    | t => (1, t)
  if sg.2 ≠ [] && sg.2.all (fun c => c.isDigit) then
    some ((10 : ℚ) ^ (sg.1 * (digitsToNat sg.2 : Int)))
  else none

/-- Model of Python `float(str)` as an exact rational: optional surrounding
whitespace and sign, then decimal digits with an optional fractional part and
optional decimal exponent.  The `inf`/`nan` spellings are not modelled; every
token the modules and claims exercise is a finite decimal or a non-numeric
string such as `"NA"`. -/
def pyFloat? (s : String) : Option ℚ :=
  let cs0 := stripPySpace s.toList
  let sg : ℚ × List Char :=
    match cs0 with
    | '+' :: t => (1, t)
    | '-' :: t => (-1, t)
    | t => (1, t)
  let sgn := sg.1
  let cs := sg.2
  let ip := cs.takeWhile (fun c => c.isDigit)
  match cs.drop ip.length with
  | [] => if ip.isEmpty then none else some (sgn * (digitsToNat ip : ℚ))
  | '.' :: t =>
    let fp := t.takeWhile (fun c => c.isDigit)
    if ip.isEmpty && fp.isEmpty then none
    else
      let base := sgn * ((digitsToNat ip : ℚ) + (digitsToNat fp : ℚ) / (10 : ℚ) ^ fp.length)
      match t.drop fp.length with
      | [] => some base
      | 'e' :: es => (readExp? es).map (fun m => base * m)
      | 'E' :: es => (readExp? es).map (fun m => base * m)
      | _ => none
  | 'e' :: es =>
    if ip.isEmpty then none
    else (readExp? es).map (fun m => sgn * (digitsToNat ip : ℚ) * m)
  | 'E' :: es =>
    if ip.isEmpty then none
    else (readExp? es).map (fun m => sgn * (digitsToNat ip : ℚ) * m)
  | _ => none

/-- `try: float(v) / except ValueError: v` — the value stored for a cell. -/
def floatOrStr (v : String) : PyVal :=
  match pyFloat? v with
  | some q => PyVal.num q
  | none => PyVal.str v

/-! ## The junction_annotation module -/

/-- A junction-module field record: field key to numeric value (captured
integers and derived percentages). -/
abbrev JRecord := List (String × ℚ)

/-- The module's fixed pattern table, as (field key, literal line head)
pairs; each source regex is `^<head>\s*(\d+)$` under `re.MULTILINE`. -/
def junctionRegexes : List (String × String) :=
  [("total_splicing_events", "Total splicing  Events:"),
   ("known_splicing_events", "Known Splicing Events:"),
   ("partial_novel_splicing_events", "Partial Novel Splicing Events:"),
   ("novel_splicing_events", "Novel Splicing Events:"),
   ("total_splicing_junctions", "Total splicing  Junctions:"),
   ("known_splicing_junctions", "Known Splicing Junctions:"),
   ("partial_novel_splicing_junctions", "Partial Novel Splicing Junctions:"),
   ("novel_splicing_junctions", "Novel Splicing Junctions:")]

/-- Consume a literal character sequence from the front of a line; `none` if
the line does not start with it. -/
def dropLit : List Char → List Char → Option (List Char)
  | [], rest => some rest
  | _, [] => none
  | p :: ps, c :: cs => if c = p then dropLit ps cs else none

/-- Match one line against `^<head>\s*(\d+)$`: the line must be the literal
head, then whitespace, then a nonempty digit group reaching the end of the
line; returns the captured integer. -/
def lineCapture (head : String) (line : List Char) : Option Nat :=
  match dropLit head.toList line with
  | none => none
  | some rest =>
    let ds := rest.dropWhile isPySpace
    if ds ≠ [] && ds.all (fun c => c.isDigit) then some (digitsToNat ds) else none

/-- `re.search(r, text, re.MULTILINE)` for such a pattern: the first line of
the text that matches, and its captured integer. -/
def searchCapture (head : String) (lines : List (List Char)) : Option Nat :=
  lines.findSome? (lineCapture head)

/-- Lines of a raw text, as the `^`/`$` anchors of `re.MULTILINE` see them. -/
def pyLines (text : String) : List (List Char) :=
  pySplitlines text.toList

/-- The extraction loop of `parse_reports`: for each pattern in table order,
if it matches some line, store the captured integer under the pattern's key.
The eight keys are pairwise distinct, so the successive fresh `d[k] = ...`
assignments build exactly this list. -/
def extractFields (text : String) : JRecord :=
  junctionRegexes.filterMap fun kr =>
    (searchCapture kr.2 (pyLines text)).map fun n => (kr.1, (n : ℚ))

/-- The (part key, pct key) pairs of the "events" group, exactly the literal
keys the source writes. -/
def eventParts : List (String × String) :=
  [("known_splicing_events", "known_splicing_events_pct"),
   ("partial_novel_splicing_events", "partial_novel_splicing_events_pct"),
   ("novel_splicing_events", "novel_splicing_events_pct")]

/-- The (part key, pct key) pairs of the "junctions" group. -/
def junctionParts : List (String × String) :=
  [("known_splicing_junctions", "known_splicing_junctions_pct"),
   ("partial_novel_splicing_junctions", "partial_novel_splicing_junctions_pct"),
   ("novel_splicing_junctions", "novel_splicing_junctions_pct")]

/-- The three `if part in d: d[pct] = (float(d[part]) / t) * 100.0`
statements of one group, with `t` the group total captured beforehand;
Python raises `ZeroDivisionError` when `t` is zero and a part is present. -/
def pctFold (t : ℚ) : List (String × String) → JRecord → Except PyErr JRecord
  | [], d => Except.ok d
  | pp :: rest, d =>
    match dictFind? d pp.1 with
    | none => pctFold t rest d
    | some v =>
      if t = 0 then Except.error PyErr.zeroDivisionError
      else pctFold t rest (dictInsert d pp.2 (v / t * 100))

/-- One `if total in d: t = float(d[total]); ...` block of `parse_reports`. -/
def groupPcts (d : JRecord) (totalKey : String) (parts : List (String × String)) :
    Except PyErr JRecord :=
  match dictFind? d totalKey with
  | none => Except.ok d
  | some t => pctFold t parts d

/-- The full derived-metric block: events group, then junctions group. -/
def computePcts (d : JRecord) : Except PyErr JRecord :=
  match groupPcts d "total_splicing_events" eventParts with
  | Except.error e => Except.error e
  | Except.ok d1 => groupPcts d1 "total_splicing_junctions" junctionParts

/-- Parsing of one discovered junction_annotation file: extraction, then the
derived-metric block. -/
def parseJunctionFile (text : String) : Except PyErr JRecord :=
  computePcts (extractFields text)

/-- Diagnostics the modules emit through the logger. -/
inductive LogEvent where
  | duplicateSample (name : String)
  | foundReports (n : Nat)
deriving DecidableEq, Repr

/-- Is a log event the duplicate-sample diagnostic? -/
def LogEvent.isDup : LogEvent → Bool
  | LogEvent.duplicateSample _ => true
  | _ => false

/-- Outcome of the junction module's `parse_reports`: the aggregated dataset,
the emitted log events, the persisted data file (if any) and the appended
report sections (if any). -/
structure JunctionResult where
  data : List (String × JRecord)
  logs : List LogEvent
  persisted : Option (String × List (String × JRecord))
  sections : List String
deriving DecidableEq, Repr

/-- The junction module's aggregation step (`if len(d) > 0:
self.junction_annotation_data[f['s_name']] = d`): a nonempty record is stored
under the file's sample name, overwriting silently; an empty record is
dropped. -/
def junctionStore (acc : List (String × JRecord)) (name : String) (d : JRecord) :
    List (String × JRecord) :=
  if 0 < d.length then dictInsert acc name d else acc

/-- The file loop of `parse_reports`: parse each discovered file (given as
(sample name, raw text)) and aggregate. -/
def junctionCollect : List (String × String) → List (String × JRecord) →
    Except PyErr (List (String × JRecord))
  | [], acc => Except.ok acc
  | f :: rest, acc =>
    match parseJunctionFile f.2 with
    | Except.error e => Except.error e
    | Except.ok d => junctionCollect rest (junctionStore acc f.1 d)

/-- `parse_reports` over the discovered files: aggregate all files, and if
the final dataset is nonempty, log the count, persist it and append the
report section; no per-collision diagnostic exists in this module. -/
def junction_parse_reports (files : List (String × String)) :
    Except PyErr JunctionResult :=
  match junctionCollect files [] with
  | Except.error e => Except.error e
  | Except.ok data =>
    if 0 < data.length then
      Except.ok ⟨data, [LogEvent.foundReports data.length],
                 some ("multiqc_rseqc_junction_annotation", data),
                 ["Junction Annotation"]⟩
    else
      Except.ok ⟨data, [], none, []⟩

/-- Modelled from the spec: the RSeQC parent module (not under `src/`; only
this submodule is) counts the samples found by its submodules and signals the
non-fatal "nothing found" `UserWarning` when the count is zero, aborting only
this module's contribution to the report. -/
def junctionModuleRun (files : List (String × String)) :
    Except PyErr JunctionResult :=
  match junction_parse_reports files with
  | Except.error e => Except.error e
  | Except.ok r =>
    if r.data = [] then Except.error PyErr.userWarning else Except.ok r

/-! ## The verifybamid module -/

/-- A verifybamid field record: header name to parsed cell value. -/
abbrev VRecord := List (String × PyVal)

/-- A per-file parsed dataset / the module-level sample dataset. -/
abbrev VDataset := List (String × VRecord)

/-- Python `l.split("\t")` yielding the tokens of one line as strings. -/
def splitTab (l : List Char) : List String :=
  (splitOnChar '\t' l).map (fun cs => String.mk cs)

/-- The cell loop of `parse_selfsm` (`for i, v in enumerate(s): if i != 0:`):
skips the first token, reads `headers[i]` (raising `IndexError` past the end
of the header), clears the chip-hiding flag when the header is literally
`"CHIP"` and the raw token is not `"NA"`, and stores the float-or-string
conversion of the token under the header name. -/
def processCells (hs : List String) (cells : List String) (i : Nat)
    (acc : VRecord) (hide : Bool) : Except PyErr (VRecord × Bool) :=
  match cells with
  | [] => Except.ok (acc, hide)
  | v :: rest =>
    if i = 0 then processCells hs rest (i + 1) acc hide
    else
      match hs[i]? with
      | none => Except.error PyErr.indexError
      | some h =>
        processCells hs rest (i + 1) (dictInsert acc h (floatOrStr v))
          (if h == "CHIP" && v != "NA" then false else hide)

/-- One data row of `parse_selfsm`: split on tab, clean the first token into
the sample name (the cleaning collaborator is a parameter), run the cell
loop.  The split list is never empty, so `s[0]` cannot fail. -/
def parseRow (clean : String → String → String) (root : String)
    (hs : List String) (l : List Char) (hide : Bool) :
    Except PyErr ((String × VRecord) × Bool) :=
  let s := splitTab l
  match processCells hs s 0 [] hide with
  | Except.error e => Except.error e
  | Except.ok rh => Except.ok ((clean (s.headD "") root, rh.1), rh.2)

/-- The line loop of `parse_selfsm` after the header row has been read:
each row's record is stored under its cleaned sample name (a repeated name
within the file is overwritten). -/
def parseLines (clean : String → String → String) (root : String)
    (hs : List String) (rows : List (List Char)) (parsed : VDataset)
    (hide : Bool) : Except PyErr (VDataset × Bool) :=
  match rows with
  | [] => Except.ok (parsed, hide)
  | l :: rest =>
    match parseRow clean root hs l hide with
    | Except.error e => Except.error e
    | Except.ok nh =>
      parseLines clean root hs rest (dictInsert parsed nh.1.1 nh.1.2) nh.2

/-- `parse_selfsm`: the first line is split on tab into the header, every
further line is a data row; threads the chip-hiding flag. -/
def parse_selfsm (clean : String → String → String) (root : String)
    (text : String) (hide : Bool) : Except PyErr (VDataset × Bool) :=
  match pySplitlines text.toList with
  | [] => Except.ok ([], hide)
  | h :: rows => parseLines clean root (splitTab h) rows [] hide

/-- Modelled from the spec (refinement reference only): the tab-delimited
extractor in the spec's words — header row defines the schema, each data
row's first token is the cleaned key, every remaining token is paired with
its header name and stored float-or-string.  Total: a short row just pairs
the tokens it has. -/
def specRowRecord (hs : List String) (s : List String) : VRecord :=
  ((hs.zip s).drop 1).foldl (fun r p => dictInsert r p.1 (floatOrStr p.2)) []

/-- Modelled from the spec (refinement reference only): the whole
`parse_selfsm` dataset in the spec's words. -/
def specParse_selfsm (clean : String → String → String) (root : String)
    (text : String) : VDataset :=
  match pySplitlines text.toList with
  | [] => []
  | h :: rows =>
    let hs := splitTab h
    rows.foldl
      (fun acc l =>
        let s := splitTab l
        dictInsert acc (clean (s.headD "") root) (specRowRecord hs s)) []

/-- The duplicate-detecting merge loop of the module's `__init__`
(lines 50–56): each sample of a file's parsed dataset is written into the
module dataset, with a duplicate diagnostic logged first when the name is
already present. -/
def mergeSamples (st : VDataset × List LogEvent) (parsed : VDataset) :
    VDataset × List LogEvent :=
  parsed.foldl
    (fun st p =>
      (dictInsert st.1 p.1 p.2,
       if st.1.any (fun q => q.1 == p.1) then
         st.2 ++ [LogEvent.duplicateSample p.1]
       else st.2))
    st

/-- Module state threaded through the file loop of `__init__`. -/
structure VState where
  data : VDataset
  hide : Bool
  logs : List LogEvent
deriving DecidableEq, Repr

/-- The file loop of `__init__` from an arbitrary starting state: parse each
discovered file (given as (root, raw text)) and merge its samples. -/
def verifyCollectFrom (clean : String → String → String) (st : VState) :
    List (String × String) → Except PyErr VState
  | [] => Except.ok st
  | f :: rest =>
    match parse_selfsm clean f.1 f.2 st.hide with
    | Except.error e => Except.error e
    | Except.ok pr =>
      let m := mergeSamples (st.data, st.logs) pr.1
      verifyCollectFrom clean ⟨m.1, pr.2, m.2⟩ rest

/-- The file loop of `__init__` from the initial state: empty dataset, chip
columns hidden, no diagnostics. -/
def verifyCollect (clean : String → String → String)
    (files : List (String × String)) : Except PyErr VState :=
  verifyCollectFrom clean ⟨[], true, []⟩ files

/-- Does this file contain a row whose `"CHIP"`-headed cell (outside the
first column) is not `"NA"`?  The observable trigger of the chip flag. -/
def fileTriggers (text : String) : Bool :=
  match pySplitlines text.toList with
  | [] => false
  | h :: rows =>
    let hs := splitTab h
    rows.any fun l =>
      (((hs.zip (splitTab l)).drop 1).any fun p => p.1 == "CHIP" && p.2 != "NA")

/-- Do all data rows of this file have at most as many tokens as the header
row?  (The source indexes `headers[i]` for every cell of every row, so a
longer row raises `IndexError`.) -/
def rowLenOk (text : String) : Bool :=
  match pySplitlines text.toList with
  | [] => true
  | h :: rows =>
    rows.all fun l => decide ((splitTab l).length ≤ (splitTab h).length)

/-- The header row of a selfSM file, as the source reads it. -/
def headerOf (text : String) : List String :=
  match pySplitlines text.toList with
  | [] => []
  | h :: _ => splitTab h

/-- The `all([s[k] == val for s in data.values()])` pattern of
`verifybamid_table`: a missing key in any record raises `KeyError`; the
whole list is built, so every record is looked up. -/
def allEq (data : VDataset) (k : String) (val : PyVal) : Except PyErr Bool :=
  match data with
  | [] => Except.ok true
  | p :: rest =>
    match dictFind? p.2 k with
    | none => Except.error PyErr.keyError
    | some v =>
      match allEq rest k val with
      | Except.error e => Except.error e
      | Except.ok b => Except.ok ((v == val) && b)

/-- The computed `hidden` flags of the detail table's ColumnSpecs (the other
columns' metadata is static and carries no data dependency). -/
structure VBHeaders where
  rg_hidden : Bool
  chip_hidden : Bool
  free_rh_hidden : Bool
  free_ra_hidden : Bool
  dpref_hidden : Bool
  rdphet_hidden : Bool
  rdpalt_hidden : Bool
deriving DecidableEq, Repr

/-- `verifybamid_table`: the six data-dependent `hidden` flags, computed in
source order (`RG` against `'ALL'`, then `FREE_RH`, `FREE_RA`, `DPREF`,
`RDPHET`, `RDPALT` against `'NA'`); the CHIP-group columns reuse the
module-wide chip-hiding flag. -/
def verifybamid_table (hide : Bool) (data : VDataset) :
    Except PyErr VBHeaders :=
  match allEq data "RG" (PyVal.str "ALL") with
  | Except.error e => Except.error e
  | Except.ok rg =>
  match allEq data "FREE_RH" (PyVal.str "NA") with
  | Except.error e => Except.error e
  | Except.ok frh =>
  match allEq data "FREE_RA" (PyVal.str "NA") with
  | Except.error e => Except.error e
  | Except.ok fra =>
  match allEq data "DPREF" (PyVal.str "NA") with
  | Except.error e => Except.error e
  | Except.ok dp =>
  match allEq data "RDPHET" (PyVal.str "NA") with
  | Except.error e => Except.error e
  | Except.ok rh =>
  match allEq data "RDPALT" (PyVal.str "NA") with
  | Except.error e => Except.error e
  | Except.ok ra =>
  Except.ok ⟨rg, hide, frh, fra, dp, rh, ra⟩

/-- Outcome of the verifybamid module's `__init__`. -/
structure VerifyResult where
  data : VDataset
  hide : Bool
  logs : List LogEvent
  persisted : Option (String × VDataset)
  table : VBHeaders
deriving DecidableEq, Repr

/-- `__init__`: collect all files, strip ignored sample names (the ignore
predicate is the external collaborator), raise the non-fatal `UserWarning`
when nothing is left, otherwise log the count, persist the dataset and build
the tables. -/
def verifybamid_init (clean : String → String → String)
    (ignore : String → Bool) (files : List (String × String)) :
    Except PyErr VerifyResult :=
  match verifyCollect clean files with
  | Except.error e => Except.error e
  | Except.ok st =>
    if (st.data.filter (fun p => !ignore p.1)).length = 0 then
      Except.error PyErr.userWarning
    else
      match verifybamid_table st.hide (st.data.filter (fun p => !ignore p.1)) with
      | Except.error e => Except.error e
      | Except.ok tbl =>
        Except.ok ⟨st.data.filter (fun p => !ignore p.1), st.hide,
                   st.logs ++ [LogEvent.foundReports
                     (st.data.filter (fun p => !ignore p.1)).length],
                   some ("multiqc_verifybamid", st.data.filter (fun p => !ignore p.1)),
                   tbl⟩

/-- The six columns `verifybamid_table` looks up unconditionally in every
record of the dataset (`RG` against `'ALL'`, the other five against
`'NA'`). -/
def vbRequiredKeys : List String :=
  ["RG", "FREE_RH", "FREE_RA", "DPREF", "RDPHET", "RDPALT"]

/-! ## Association-list lemmas -/

theorem dictFind?_eq_none_of_not_mem {β : Type} (d : List (String × β)) (k : String)
    (h : k ∉ d.map Prod.fst) : dictFind? d k = none := by
  induction d with
  | nil => rfl
  | cons p rest ih =>
    simp only [List.map_cons, List.mem_cons, not_or] at h
    unfold dictFind?
    rw [List.find?_cons_of_neg]
    · exact ih h.2
    · simp only [beq_iff_eq]
      exact fun hk => h.1 hk.symm

theorem dictFind?_cons_self {β : Type} (rest : List (String × β)) (k : String) (v : β) :
    dictFind? ((k, v) :: rest) k = some v := by
  unfold dictFind?
  rw [List.find?_cons_of_pos] <;> simp

theorem dictFind?_cons_ne {β : Type} (rest : List (String × β)) (p : String × β)
    (k : String) (h : p.1 ≠ k) : dictFind? (p :: rest) k = dictFind? rest k := by
  unfold dictFind?
  rw [List.find?_cons_of_neg]
  simp [h]

theorem dictFind?_map_update {β : Type} (d : List (String × β)) (k k' : String) (v : β)
    (h : k' ≠ k) :
    dictFind? (d.map (fun p => if p.1 == k then (k, v) else p)) k' = dictFind? d k' := by
  induction d with
  | nil => rfl
  | cons p rest ih =>
    by_cases hp : p.1 = k
    · simp only [List.map_cons, if_pos (by simp [hp] : (p.1 == k) = true)]
      rw [dictFind?_cons_ne _ _ _ (Ne.symm h), dictFind?_cons_ne _ _ _ (by rw [hp]; exact Ne.symm h)]
      exact ih
    · simp only [List.map_cons, if_neg (by simp [hp] : ¬(p.1 == k) = true)]
      by_cases hpk : p.1 = k'
      · unfold dictFind?
        rw [List.find?_cons_of_pos _ (by simp [hpk]), List.find?_cons_of_pos _ (by simp [hpk])]
      · rw [dictFind?_cons_ne _ _ _ hpk, dictFind?_cons_ne _ _ _ hpk]
        exact ih

theorem dictFind?_map_update_self {β : Type} (d : List (String × β)) (k : String) (v : β)
    (hany : d.any (fun p => p.1 == k) = true) :
    dictFind? (d.map (fun p => if p.1 == k then (k, v) else p)) k = some v := by
  induction d with
  | nil => simp at hany
  | cons p rest ih =>
    by_cases hp : p.1 = k
    · simp only [List.map_cons, if_pos (by simp [hp] : (p.1 == k) = true)]
      exact dictFind?_cons_self _ _ _
    · simp only [List.map_cons, if_neg (by simp [hp] : ¬(p.1 == k) = true)]
      rw [dictFind?_cons_ne _ _ _ hp]
      have hrest : rest.any (fun p => p.1 == k) = true := by
        simp only [List.any_cons, Bool.or_eq_true] at hany
        rcases hany with hx | hx
        · exact absurd (beq_iff_eq.mp hx) hp
        · exact hx
      exact ih hrest

theorem dictFind?_append_single {β : Type} (d : List (String × β)) (k k' : String) (v : β)
    (h : k' ≠ k) : dictFind? (d ++ [(k, v)]) k' = dictFind? d k' := by
  induction d with
  | nil => rw [List.nil_append, dictFind?_cons_ne _ _ _ (Ne.symm h)]
  | cons p rest ih =>
    by_cases hpk : p.1 = k'
    · rw [List.cons_append]
      unfold dictFind?
      rw [List.find?_cons_of_pos _ (by simp [hpk]), List.find?_cons_of_pos _ (by simp [hpk])]
    · rw [List.cons_append, dictFind?_cons_ne _ _ _ hpk, dictFind?_cons_ne _ _ _ hpk]
      exact ih

theorem dictFind?_append_single_self {β : Type} (d : List (String × β)) (k : String) (v : β)
    (hany : ¬d.any (fun p => p.1 == k) = true) :
    dictFind? (d ++ [(k, v)]) k = some v := by
  induction d with
  | nil => exact dictFind?_cons_self _ _ _
  | cons p rest ih =>
    have hp : p.1 ≠ k := fun hk => hany (by simp [List.any_cons, hk])
    have hrest : ¬rest.any (fun p => p.1 == k) = true :=
      fun hk => hany (by simp [List.any_cons, hk])
    rw [List.cons_append, dictFind?_cons_ne _ _ _ hp]
    exact ih hrest

theorem dictFind?_dictInsert_self {β : Type} (d : List (String × β)) (k : String) (v : β) :
    dictFind? (dictInsert d k v) k = some v := by
  unfold dictInsert
  by_cases hany : d.any (fun p => p.1 == k) = true
  · rw [if_pos hany]; exact dictFind?_map_update_self d k v hany
  · rw [if_neg hany]; exact dictFind?_append_single_self d k v hany

theorem dictFind?_dictInsert_ne {β : Type} (d : List (String × β)) (k k' : String) (v : β)
    (h : k' ≠ k) : dictFind? (dictInsert d k v) k' = dictFind? d k' := by
  unfold dictInsert
  by_cases hany : d.any (fun p => p.1 == k) = true
  · rw [if_pos hany]; exact dictFind?_map_update d k k' v h
  · rw [if_neg hany]; exact dictFind?_append_single d k k' v h

/-! ## Extraction-table lemmas -/

theorem dictFind?_filterMap_none (g : String × String → Option ℚ) :
    ∀ (L : List (String × String)) (k : String), (∀ kr ∈ L, kr.1 ≠ k) →
      dictFind? (L.filterMap fun x => (g x).map fun q => (x.1, q)) k = none := by
  intro L
  induction L with
  | nil => intro k _; rfl
  | cons x L ih =>
    intro k h
    cases hg : g x with
    | none =>
      rw [List.filterMap_cons_none (by rw [hg]; rfl)]
      exact ih k (fun kr hkr => h kr (List.mem_cons_of_mem _ hkr))
    | some q =>
      rw [List.filterMap_cons_some (by rw [hg]; rfl)]
      rw [dictFind?_cons_ne (L.filterMap fun x => (g x).map fun q => (x.1, q)) (x.1, q) k
        (h x (List.mem_cons_self _ _))]
      exact ih k (fun kr hkr => h kr (List.mem_cons_of_mem _ hkr))

theorem dictFind?_filterMap_keyed (g : String × String → Option ℚ) :
    ∀ (L : List (String × String)), (L.map Prod.fst).Nodup →
      ∀ kr ∈ L, dictFind? (L.filterMap fun x => (g x).map fun q => (x.1, q)) kr.1 = g kr := by
  intro L
  induction L with
  | nil => intro _ kr hkr; exact absurd hkr (List.not_mem_nil _)
  | cons x L ih =>
    intro hnd kr hkr
    simp only [List.map_cons, List.nodup_cons] at hnd
    rcases List.mem_cons.mp hkr with rfl | hmem
    · cases hg : g kr with
      | none =>
        rw [List.filterMap_cons_none (by rw [hg]; rfl)]
        exact dictFind?_filterMap_none g L kr.1
          (fun kr' h' he => hnd.1 (he ▸ List.mem_map_of_mem Prod.fst h'))
      | some q =>
        rw [List.filterMap_cons_some (by rw [hg]; rfl)]
        exact dictFind?_cons_self _ _ _
    · have hne : x.1 ≠ kr.1 :=
        fun he => hnd.1 (he ▸ List.mem_map_of_mem Prod.fst hmem)
      cases hg : g x with
      | none =>
        rw [List.filterMap_cons_none (by rw [hg]; rfl)]
        exact ih hnd.2 kr hmem
      | some q =>
        rw [List.filterMap_cons_some (by rw [hg]; rfl)]
        rw [dictFind?_cons_ne (L.filterMap fun x => (g x).map fun q => (x.1, q)) (x.1, q) kr.1 hne]
        exact ih hnd.2 kr hmem

/-- Lookup in the extracted record, for each of the eight fixed keys, is
exactly the first-line regex capture. -/
theorem extract_find (text : String) :
    ∀ kr ∈ junctionRegexes, dictFind? (extractFields text) kr.1 =
      (searchCapture kr.2 (pyLines text)).map (fun n => (n : ℚ)) := by
  intro kr hkr
  have hfun : (fun kr : String × String =>
      (searchCapture kr.2 (pyLines text)).map fun n => (kr.1, (n : ℚ))) =
      (fun x : String × String =>
        (((searchCapture x.2 (pyLines text)).map (fun n => (n : ℚ))).map fun q => (x.1, q))) := by
    funext x
    cases searchCapture x.2 (pyLines text) <;> rfl
  have hnd : (junctionRegexes.map Prod.fst).Nodup := by decide
  rw [extractFields, hfun]
  exact dictFind?_filterMap_keyed _ junctionRegexes hnd kr hkr

/-- Every key of the extracted record is one of the eight fixed keys. -/
theorem extract_keys (text : String) :
    ∀ p ∈ extractFields text, p.1 ∈ junctionRegexes.map Prod.fst := by
  intro p hp
  rcases List.mem_filterMap.mp hp with ⟨x, hx, hfx⟩
  cases hs : searchCapture x.2 (pyLines text) with
  | none => rw [hs] at hfx; cases hfx
  | some n =>
    rw [hs] at hfx
    cases hfx
    exact List.mem_map_of_mem Prod.fst hx

/-- A key that is not one of the eight fixed keys is absent from the
extracted record. -/
theorem extract_find_none (text : String) (k : String)
    (h : k ∉ junctionRegexes.map Prod.fst) : dictFind? (extractFields text) k = none := by
  apply dictFind?_eq_none_of_not_mem
  intro hk
  rcases List.mem_map.mp hk with ⟨p, hp, hpk⟩
  exact h (hpk ▸ extract_keys text p hp)

/-- A matching line makes the search succeed. -/
theorem searchCapture_isSome (head : String) (lines : List (List Char))
    (l : List Char) (hl : l ∈ lines) (h : (lineCapture head l).isSome) :
    (searchCapture head lines).isSome := by
  induction lines with
  | nil => exact absurd hl (List.not_mem_nil _)
  | cons x rest ih =>
    rcases List.mem_cons.mp hl with rfl | hmem
    · unfold searchCapture List.findSome?
      cases hx : lineCapture head l with
      | none => rw [hx] at h; cases h
      | some n => rfl
    · unfold searchCapture List.findSome?
      cases hx : lineCapture head x with
      | none => exact ih hmem
      | some n => rfl

/-! ## Percentage-block lemmas -/

theorem pctFold_find_preserve (t : ℚ) :
    ∀ (parts : List (String × String)) (a d' : JRecord),
      pctFold t parts a = Except.ok d' →
      ∀ k, (∀ pp ∈ parts, k ≠ pp.2) → dictFind? d' k = dictFind? a k := by
  intro parts
  induction parts with
  | nil => intro a d' h k _; cases h; rfl
  | cons pp rest ih =>
    intro a d' h k hk
    cases hfind : dictFind? a pp.1 with
    | none =>
      simp only [pctFold, hfind] at h
      exact ih a d' h k (fun qq hqq => hk qq (List.mem_cons_of_mem _ hqq))
    | some v =>
      simp only [pctFold, hfind] at h
      by_cases ht : t = 0
      · rw [if_pos ht] at h; cases h
      · rw [if_neg ht] at h
        rw [ih _ d' h k (fun qq hqq => hk qq (List.mem_cons_of_mem _ hqq))]
        exact dictFind?_dictInsert_ne _ _ _ _ (hk pp (List.mem_cons_self _ _))

theorem pctFold_find_pct (t : ℚ) :
    ∀ (parts : List (String × String)) (a d' : JRecord),
      pctFold t parts a = Except.ok d' →
      (parts.map Prod.snd).Nodup →
      (∀ pp ∈ parts, ∀ qq ∈ parts, pp.1 ≠ qq.2) →
      ∀ pp ∈ parts, ∀ v, dictFind? a pp.1 = some v →
        dictFind? d' pp.2 = some (v / t * 100) := by
  intro parts
  induction parts with
  | nil => intro a d' _ _ _ pp hpp; exact absurd hpp (List.not_mem_nil _)
  | cons p0 rest ih =>
    intro a d' h hnd hdisj pp hpp v hv
    simp only [List.map_cons, List.nodup_cons] at hnd
    rcases List.mem_cons.mp hpp with rfl | hmem
    · simp only [pctFold, hv] at h
      by_cases ht : t = 0
      · rw [if_pos ht] at h; cases h
      · rw [if_neg ht] at h
        rw [pctFold_find_preserve t rest _ d' h pp.2
            (fun qq hqq he => hnd.1 (he ▸ List.mem_map_of_mem Prod.snd hqq))]
        exact dictFind?_dictInsert_self _ _ _
    · cases hfind : dictFind? a p0.1 with
      | none =>
        simp only [pctFold, hfind] at h
        exact ih a d' h hnd.2
          (fun x hx y hy => hdisj x (List.mem_cons_of_mem _ hx) y (List.mem_cons_of_mem _ hy))
          pp hmem v hv
      | some v0 =>
        simp only [pctFold, hfind] at h
        by_cases ht : t = 0
        · rw [if_pos ht] at h; cases h
        · rw [if_neg ht] at h
          refine ih _ d' h hnd.2
            (fun x hx y hy => hdisj x (List.mem_cons_of_mem _ hx) y (List.mem_cons_of_mem _ hy))
            pp hmem v ?_
          rw [dictFind?_dictInsert_ne _ _ _ _
            (hdisj pp (List.mem_cons_of_mem _ hmem) p0 (List.mem_cons_self _ _))]
          exact hv

theorem pctFold_ok_of_ne (t : ℚ) (ht : t ≠ 0) :
    ∀ (parts : List (String × String)) (a : JRecord),
      ∃ d', pctFold t parts a = Except.ok d' := by
  intro parts
  induction parts with
  | nil => intro a; exact ⟨a, rfl⟩
  | cons pp rest ih =>
    intro a
    cases hfind : dictFind? a pp.1 with
    | none => simp only [pctFold, hfind]; exact ih a
    | some v => simp only [pctFold, hfind]; rw [if_neg ht]; exact ih _

theorem groupPcts_find_preserve (d d' : JRecord) (tk : String)
    (parts : List (String × String)) (h : groupPcts d tk parts = Except.ok d')
    (k : String) (hk : ∀ pp ∈ parts, k ≠ pp.2) :
    dictFind? d' k = dictFind? d k := by
  cases hfind : dictFind? d tk with
  | none => simp only [groupPcts, hfind] at h; cases h; rfl
  | some t => simp only [groupPcts, hfind] at h; exact pctFold_find_preserve t parts d d' h k hk

/-! ## Tab-delimited-extractor lemmas -/

theorem splitOnChar_ne_nil (sep : Char) (cs : List Char) : splitOnChar sep cs ≠ [] := by
  cases cs with
  | nil => simp [splitOnChar]
  | cons c cs =>
    unfold splitOnChar
    cases h : splitOnChar sep cs with
    | nil => simp
    | cons g gs => by_cases hc : c = sep <;> simp [hc]

theorem splitTab_ne_nil (l : List Char) : splitTab l ≠ [] := by
  unfold splitTab
  rw [ne_eq, List.map_eq_nil_iff]
  exact splitOnChar_ne_nil '\t' l

theorem zip_drop_one {α β : Type} (hs : List α) (s0 : β) (cs : List β) :
    (hs.zip (s0 :: cs)).drop 1 = (hs.drop 1).zip cs := by
  cases hs with
  | nil => rfl
  | cons h0 ht => rfl

theorem foldl_hide_eq (pairs : List (String × String)) :
    ∀ hide : Bool,
      pairs.foldl (fun b p => if p.1 == "CHIP" && p.2 != "NA" then false else b) hide =
        (hide && !(pairs.any (fun p => p.1 == "CHIP" && p.2 != "NA"))) := by
  induction pairs with
  | nil => intro hide; simp
  | cons p rest ih =>
    intro hide
    simp only [List.foldl_cons, List.any_cons, ih]
    by_cases hp : (p.1 == "CHIP" && p.2 != "NA") = true
    · simp [hp]
    · rw [Bool.not_eq_true] at hp
      simp [hp]

theorem processCells_ok (hs : List String) :
    ∀ (cells : List String) (i : Nat) (acc : VRecord) (hide : Bool),
      1 ≤ i → i + cells.length ≤ hs.length →
      processCells hs cells i acc hide = Except.ok
        (((hs.drop i).zip cells).foldl (fun r p => dictInsert r p.1 (floatOrStr p.2)) acc,
         ((hs.drop i).zip cells).foldl
           (fun b p => if p.1 == "CHIP" && p.2 != "NA" then false else b) hide) := by
  intro cells
  induction cells with
  | nil =>
    intro i acc hide _ _
    simp [processCells, List.zip_nil_right]
  | cons v rest ih =>
    intro i acc hide hi hlen
    have hilt : i < hs.length := by
      simp only [List.length_cons] at hlen
      omega
    have hidx : hs[i]? = some hs[i] := List.getElem?_eq_getElem hilt
    have hdrop : hs.drop i = hs[i] :: hs.drop (i + 1) := (List.getElem_cons_drop hs i hilt).symm
    simp only [processCells, if_neg (by omega : ¬i = 0), hidx]
    rw [hdrop, List.zip_cons_cons, List.foldl_cons, List.foldl_cons]
    exact ih (i + 1) _ _ (by omega) (by simp only [List.length_cons] at hlen; omega)

theorem processCells_err (hs : List String) :
    ∀ (cells : List String) (i : Nat) (acc : VRecord) (hide : Bool),
      1 ≤ i → hs.length < i + cells.length → cells ≠ [] →
      processCells hs cells i acc hide = Except.error PyErr.indexError := by
  intro cells
  induction cells with
  | nil => intro i acc hide _ _ hne; exact absurd rfl hne
  | cons v rest ih =>
    intro i acc hide hi hlen _
    by_cases hilt : i < hs.length
    · have hidx : hs[i]? = some hs[i] := List.getElem?_eq_getElem hilt
      simp only [processCells, if_neg (by omega : ¬i = 0), hidx]
      have hrest : rest ≠ [] := by
        intro he
        subst he
        simp only [List.length_cons, List.length_nil] at hlen
        omega
      exact ih (i + 1) _ _ (by omega)
        (by simp only [List.length_cons] at hlen ⊢; omega) hrest
    · have hidx : hs[i]? = none := List.getElem?_eq_none (by omega)
      simp only [processCells, if_neg (by omega : ¬i = 0), hidx]

theorem processCells_row (hs : List String) (s : List String) (hide : Bool)
    (hlen : s.length ≤ hs.length) (hne : s ≠ []) :
    processCells hs s 0 [] hide = Except.ok
      (specRowRecord hs s,
       hide && !(((hs.zip s).drop 1).any (fun p => p.1 == "CHIP" && p.2 != "NA"))) := by
  cases s with
  | nil => exact absurd rfl hne
  | cons s0 cs =>
    show processCells hs cs 1 [] hide = _
    rw [processCells_ok hs cs 1 [] hide (le_refl 1)
      (by simp only [List.length_cons] at hlen; omega)]
    rw [specRowRecord, zip_drop_one, foldl_hide_eq]

theorem processCells_row_err (hs : List String) (s : List String) (hide : Bool)
    (hhs : hs ≠ []) (hlen : hs.length < s.length) :
    processCells hs s 0 [] hide = Except.error PyErr.indexError := by
  cases s with
  | nil => simp at hlen
  | cons s0 cs =>
    show processCells hs cs 1 [] hide = _
    apply processCells_err hs cs 1 [] hide (le_refl 1)
    · simp only [List.length_cons] at hlen
      omega
    · intro he
      subst he
      simp only [List.length_cons, List.length_nil] at hlen
      have : hs = [] := by
        cases hs with
        | nil => rfl
        | cons a b => simp at hlen
      exact hhs this

theorem parseRow_ok (clean : String → String → String) (root : String)
    (hs : List String) (l : List Char) (hide : Bool)
    (hlen : (splitTab l).length ≤ hs.length) :
    parseRow clean root hs l hide = Except.ok
      ((clean ((splitTab l).headD "") root, specRowRecord hs (splitTab l)),
       hide && !(((hs.zip (splitTab l)).drop 1).any
         fun p => p.1 == "CHIP" && p.2 != "NA")) := by
  simp only [parseRow, processCells_row hs (splitTab l) hide hlen (splitTab_ne_nil l)]

theorem parseRow_err (clean : String → String → String) (root : String)
    (hs : List String) (l : List Char) (hide : Bool)
    (hhs : hs ≠ []) (hlen : hs.length < (splitTab l).length) :
    parseRow clean root hs l hide = Except.error PyErr.indexError := by
  simp only [parseRow, processCells_row_err hs (splitTab l) hide hhs hlen]

theorem parseLines_ok (clean : String → String → String) (root : String)
    (hs : List String) :
    ∀ (rows : List (List Char)) (parsed : VDataset) (hide : Bool),
      (∀ l ∈ rows, (splitTab l).length ≤ hs.length) →
      parseLines clean root hs rows parsed hide = Except.ok
        (rows.foldl (fun acc l => dictInsert acc (clean ((splitTab l).headD "") root)
            (specRowRecord hs (splitTab l))) parsed,
         hide && !(rows.any (fun l =>
           ((hs.zip (splitTab l)).drop 1).any fun p => p.1 == "CHIP" && p.2 != "NA"))) := by
  intro rows
  induction rows with
  | nil => intro parsed hide _; simp [parseLines]
  | cons l rest ih =>
    intro parsed hide hw
    simp only [parseLines, parseRow_ok clean root hs l hide (hw l (List.mem_cons_self _ _))]
    rw [ih _ _ (fun x hx => hw x (List.mem_cons_of_mem _ hx))]
    rw [List.foldl_cons, List.any_cons, Bool.not_or, ← Bool.and_assoc]

theorem parseLines_hide (clean : String → String → String) (root : String)
    (hs : List String) (hhs : hs ≠ []) :
    ∀ (rows : List (List Char)) (parsed : VDataset) (hide : Bool) (d : VDataset) (h' : Bool),
      parseLines clean root hs rows parsed hide = Except.ok (d, h') →
      h' = (hide && !(rows.any (fun l =>
        ((hs.zip (splitTab l)).drop 1).any fun p => p.1 == "CHIP" && p.2 != "NA"))) := by
  intro rows
  induction rows with
  | nil => intro parsed hide d h' h; cases h; simp
  | cons l rest ih =>
    intro parsed hide d h' h
    by_cases hlen : (splitTab l).length ≤ hs.length
    · rw [parseLines] at h
      rw [parseRow_ok clean root hs l hide hlen] at h
      rw [ih _ _ _ _ h, List.any_cons, Bool.not_or, ← Bool.and_assoc]
    · rw [parseLines] at h
      rw [parseRow_err clean root hs l hide hhs (by omega)] at h
      cases h

theorem parse_selfsm_ok (clean : String → String → String) (root : String)
    (text : String) (hide : Bool) (h : rowLenOk text = true) :
    parse_selfsm clean root text hide = Except.ok
      (specParse_selfsm clean root text, hide && !(fileTriggers text)) := by
  cases hls : pySplitlines text.data with
  | nil => simp [parse_selfsm, specParse_selfsm, fileTriggers, String.toList, hls]
  | cons hline rows =>
    simp only [rowLenOk, String.toList, hls, List.all_eq_true, decide_eq_true_eq] at h
    simp only [parse_selfsm, specParse_selfsm, fileTriggers, String.toList, hls]
    exact parseLines_ok clean root (splitTab hline) rows [] hide h

theorem parse_selfsm_hide (clean : String → String → String) (root : String)
    (text : String) (hide : Bool) (d : VDataset) (h' : Bool)
    (h : parse_selfsm clean root text hide = Except.ok (d, h')) :
    h' = (hide && !(fileTriggers text)) := by
  cases hls : pySplitlines text.data with
  | nil =>
    simp only [parse_selfsm, String.toList, hls] at h
    cases h
    simp [fileTriggers, String.toList, hls]
  | cons hline rows =>
    simp only [parse_selfsm, String.toList, hls] at h
    simp only [fileTriggers, String.toList, hls]
    exact parseLines_hide clean root (splitTab hline) (splitTab_ne_nil hline)
      rows [] hide d h' h

theorem verifyCollectFrom_hide (clean : String → String → String) :
    ∀ (files : List (String × String)) (st st' : VState),
      verifyCollectFrom clean st files = Except.ok st' →
      st'.hide = (st.hide && !(files.any (fun f => fileTriggers f.2))) := by
  intro files
  induction files with
  | nil => intro st st' h; cases h; simp
  | cons f rest ih =>
    intro st st' h
    cases hp : parse_selfsm clean f.1 f.2 st.hide with
    | error e =>
      simp only [verifyCollectFrom, hp] at h
      exact Except.noConfusion h
    | ok pr =>
      simp only [verifyCollectFrom, hp] at h
      rw [ih _ _ h]
      dsimp only
      rw [parse_selfsm_hide clean f.1 f.2 st.hide pr.1 pr.2 (by rw [hp])]
      rw [List.any_cons, Bool.not_or, ← Bool.and_assoc]

/-- No cell of a file whose header lacks a `"CHIP"` column can trigger the
chip flag. -/
theorem fileTriggers_false_of_no_chip (text : String)
    (h : "CHIP" ∉ headerOf text) : fileTriggers text = false := by
  cases hls : pySplitlines text.data with
  | nil => simp [fileTriggers, String.toList, hls]
  | cons hline rows =>
    simp only [headerOf, String.toList, hls] at h
    simp only [fileTriggers, String.toList, hls]
    rw [List.any_eq_false]
    intro l _
    rw [Bool.not_eq_true, List.any_eq_false]
    intro p hp
    have hmem : p.1 ∈ splitTab hline := by
      have hsub := List.drop_sublist 1 ((splitTab hline).zip (splitTab l))
      have := List.of_mem_zip (hsub.mem hp)
      exact this.1
    intro hcontra
    rw [Bool.and_eq_true, beq_iff_eq] at hcontra
    exact h (hcontra.1 ▸ hmem)

/-! ## Table-emission lemmas -/

theorem allEq_true_iff (k : String) (val : PyVal) :
    ∀ (data : VDataset) (b : Bool), allEq data k val = Except.ok b →
      (b = true ↔ ∀ p ∈ data, dictFind? p.2 k = some val) := by
  intro data
  induction data with
  | nil => intro b h; cases h; simp
  | cons p rest ih =>
    intro b h
    cases hfind : dictFind? p.2 k with
    | none =>
      simp only [allEq, hfind] at h
      exact Except.noConfusion h
    | some v =>
      cases hrec : allEq rest k val with
      | error e =>
        simp only [allEq, hfind, hrec] at h
        exact Except.noConfusion h
      | ok b' =>
        simp only [allEq, hfind, hrec] at h
        cases h
        constructor
        · intro hb
          simp only [Bool.and_eq_true, beq_iff_eq] at hb
          intro q hq
          rcases List.mem_cons.mp hq with rfl | hm
          · rw [hfind, hb.1]
          · exact (ih b' hrec).mp hb.2 q hm
        · intro hall
          have h1 := hall p (List.mem_cons_self _ _)
          rw [hfind] at h1
          injection h1 with h1
          subst h1
          have hb' : b' = true :=
            (ih b' hrec).mpr (fun q hq => hall q (List.mem_cons_of_mem _ hq))
          simp [hb']

theorem allEq_ok_mem (k : String) (val : PyVal) :
    ∀ (data : VDataset) (b : Bool), allEq data k val = Except.ok b →
      ∀ p ∈ data, (dictFind? p.2 k).isSome := by
  intro data
  induction data with
  | nil => intro b _ p hp; exact absurd hp (List.not_mem_nil _)
  | cons p rest ih =>
    intro b h q hq
    cases hfind : dictFind? p.2 k with
    | none =>
      simp only [allEq, hfind] at h
      exact Except.noConfusion h
    | some v =>
      cases hrec : allEq rest k val with
      | error e =>
        simp only [allEq, hfind, hrec] at h
        exact Except.noConfusion h
      | ok b' =>
        rcases List.mem_cons.mp hq with rfl | hm
        · rw [hfind]; rfl
        · exact ih b' hrec q hm

theorem allEq_isOk (k : String) (val : PyVal) :
    ∀ (data : VDataset), (∀ p ∈ data, (dictFind? p.2 k).isSome) →
      ∃ b, allEq data k val = Except.ok b := by
  intro data
  induction data with
  | nil => intro _; exact ⟨true, rfl⟩
  | cons p rest ih =>
    intro hall
    have h1 := hall p (List.mem_cons_self _ _)
    cases hfind : dictFind? p.2 k with
    | none => rw [hfind] at h1; cases h1
    | some v =>
      rcases ih (fun q hq => hall q (List.mem_cons_of_mem _ hq)) with ⟨b', hb'⟩
      exact ⟨(v == val) && b', by simp only [allEq, hfind, hb']⟩

theorem allEq_error_eq (k : String) (val : PyVal) :
    ∀ (data : VDataset) (e : PyErr), allEq data k val = Except.error e →
      e = PyErr.keyError := by
  intro data
  induction data with
  | nil => intro e h; cases h
  | cons p rest ih =>
    intro e h
    cases hfind : dictFind? p.2 k with
    | none => simp only [allEq, hfind] at h; cases h; rfl
    | some v =>
      cases hrec : allEq rest k val with
      | error e' =>
        simp only [allEq, hfind, hrec] at h
        injection h with h2
        subst h2
        exact ih _ hrec
      | ok b' =>
        simp only [allEq, hfind, hrec] at h
        exact Except.noConfusion h

/-! ## Further record-shape lemmas -/

theorem dictInsert_nil {β : Type} (k : String) (v : β) :
    dictInsert ([] : List (String × β)) k v = [(k, v)] := rfl

theorem map_fst_zip_take {α β : Type} :
    ∀ (a : List α) (b : List β), (a.zip b).map Prod.fst = a.take b.length := by
  intro a
  induction a with
  | nil => intro b; simp
  | cons x a ih =>
    intro b
    cases b with
    | nil => simp
    | cons y b => simp [ih]

theorem foldl_dictInsert_fresh :
    ∀ (l : List (String × String)) (acc : VRecord),
      (l.map Prod.fst).Nodup →
      (∀ p ∈ l, acc.any (fun q => q.1 == p.1) = false) →
      l.foldl (fun r p => dictInsert r p.1 (floatOrStr p.2)) acc =
        acc ++ l.map (fun p => (p.1, floatOrStr p.2)) := by
  intro l
  induction l with
  | nil => intro acc _ _; simp
  | cons p rest ih =>
    intro acc hnd hfresh
    simp only [List.map_cons, List.nodup_cons] at hnd
    have hstep : dictInsert acc p.1 (floatOrStr p.2) = acc ++ [(p.1, floatOrStr p.2)] := by
      unfold dictInsert
      rw [if_neg]
      rw [hfresh p (List.mem_cons_self _ _)]
      simp
    rw [List.foldl_cons, hstep,
        ih (acc ++ [(p.1, floatOrStr p.2)]) hnd.2 ?fresh]
    · simp
    case fresh =>
      intro q hq
      rw [List.any_append, hfresh q (List.mem_cons_of_mem _ hq)]
      have hne : q.1 ≠ p.1 := fun he => hnd.1 (he ▸ List.mem_map_of_mem Prod.fst hq)
      simp [hne.symm]

/-! ## Module-outcome inversion lemmas -/

theorem junction_parse_reports_shape (files : List (String × String))
    (r : JunctionResult) (h : junction_parse_reports files = Except.ok r) :
    (0 < r.data.length ∧ r.logs = [LogEvent.foundReports r.data.length] ∧
      r.persisted = some ("multiqc_rseqc_junction_annotation", r.data) ∧
      r.sections = ["Junction Annotation"]) ∨
    (r.data = [] ∧ r.logs = [] ∧ r.persisted = none ∧ r.sections = []) := by
  cases hc : junctionCollect files [] with
  | error e =>
    simp only [junction_parse_reports, hc] at h
    exact Except.noConfusion h
  | ok data =>
    simp only [junction_parse_reports, hc] at h
    by_cases hlen : 0 < data.length
    · rw [if_pos hlen] at h
      injection h with h
      subst h
      exact Or.inl ⟨hlen, rfl, rfl, rfl⟩
    · rw [if_neg hlen] at h
      injection h with h
      subst h
      have : data = [] := List.length_eq_zero.mp (by omega)
      exact Or.inr ⟨this, rfl, rfl, rfl⟩

/-! ## Claims -/

/-- C1 (counterexample): the claim "the presence guard on the total field
suffices to prevent division by zero" is false: the regex `(\d+)` captures
`0`, so a report whose total line reads `0` while a part line is present
drives the percentage computation into the `ZeroDivisionError` branch. -/
theorem claim_C1_counterexample :
    parseJunctionFile "Total splicing  Events:  0\nKnown Splicing Events:  0" =
      Except.error PyErr.zeroDivisionError := by
  decide

/-- C1 (amended): the presence guard prevents missing-key errors only; the
division is safe exactly when every present total is nonzero.  For every raw
text whose extracted totals (when present) are nonzero, the whole per-file
parse — extraction followed by the derived-metric block — succeeds, with no
division-by-zero branch reached. -/
theorem claim_C1 (text : String)
    (hte : ∀ t : ℚ, dictFind? (extractFields text) "total_splicing_events" = some t → t ≠ 0)
    (htj : ∀ t : ℚ, dictFind? (extractFields text) "total_splicing_junctions" = some t → t ≠ 0) :
    ∃ d', parseJunctionFile text = Except.ok d' := by
  have hev : ∃ d1, groupPcts (extractFields text) "total_splicing_events" eventParts =
      Except.ok d1 := by
    cases he : dictFind? (extractFields text) "total_splicing_events" with
    | none => exact ⟨extractFields text, by simp only [groupPcts, he]⟩
    | some t =>
      rcases pctFold_ok_of_ne t (hte t he) eventParts (extractFields text) with ⟨d1, hd1⟩
      exact ⟨d1, by simp only [groupPcts, he]; exact hd1⟩
  rcases hev with ⟨d1, hd1⟩
  have hpres : dictFind? d1 "total_splicing_junctions" =
      dictFind? (extractFields text) "total_splicing_junctions" :=
    groupPcts_find_preserve _ _ _ _ hd1 _ (by decide)
  have hju : ∃ d', groupPcts d1 "total_splicing_junctions" junctionParts = Except.ok d' := by
    cases hj : dictFind? d1 "total_splicing_junctions" with
    | none => exact ⟨d1, by simp only [groupPcts, hj]⟩
    | some t =>
      have ht : t ≠ 0 := htj t (by rw [← hpres]; exact hj)
      rcases pctFold_ok_of_ne t ht junctionParts d1 with ⟨d', hd'⟩
      exact ⟨d', by simp only [groupPcts, hj]; exact hd'⟩
  rcases hju with ⟨d', hd'⟩
  exact ⟨d', by simp only [parseJunctionFile, computePcts, hd1]; exact hd'⟩

/-- C1 witness: a report with no total lines satisfies the nonzero-total
hypotheses vacuously, and its parse succeeds. -/
theorem claim_C1_witness :
    ∃ d', parseJunctionFile "Known Splicing Events: 40" = Except.ok d' :=
  claim_C1 "Known Splicing Events: 40"
    (fun t ht => by
      rw [show dictFind? (extractFields "Known Splicing Events: 40")
        "total_splicing_events" = none from rfl] at ht
      exact Option.noConfusion ht)
    (fun t ht => by
      rw [show dictFind? (extractFields "Known Splicing Events: 40")
        "total_splicing_junctions" = none from rfl] at ht
      exact Option.noConfusion ht)

/-- C2: the regex field extractor returns a record whose lookup at each of
the eight fixed keys is exactly the first-matching-line capture (absent iff
no line matches), every key of the record is one of the eight, and when every
pattern matches some line all eight keys are populated with the captured
integers. -/
theorem claim_C2 (text : String) :
    (∀ kr ∈ junctionRegexes, dictFind? (extractFields text) kr.1 =
        (searchCapture kr.2 (pyLines text)).map (fun n => (n : ℚ)))
    ∧ (∀ p ∈ extractFields text, p.1 ∈ junctionRegexes.map Prod.fst)
    ∧ ((∀ kr ∈ junctionRegexes, ∃ l ∈ pyLines text, (lineCapture kr.2 l).isSome) →
        ∀ kr ∈ junctionRegexes, ∃ n : ℚ,
          dictFind? (extractFields text) kr.1 = some n) := by
  refine ⟨extract_find text, extract_keys text, ?_⟩
  intro hall kr hkr
  have h1 := extract_find text kr hkr
  rcases hall kr hkr with ⟨l, hl, hcap⟩
  have h2 := searchCapture_isSome kr.2 (pyLines text) l hl hcap
  cases hs : searchCapture kr.2 (pyLines text) with
  | none => rw [hs] at h2; exact absurd h2 (by simp)
  | some n => rw [hs] at h1; exact ⟨(n : ℚ), h1⟩

/-- C2 witness: on a two-line report the extractor stores the captured 40
under the known-events key, as the first-match equation instantiates. -/
theorem claim_C2_witness :
    dictFind? (extractFields "Total splicing  Events:  100\nKnown Splicing Events:   40")
        "known_splicing_events" =
      (searchCapture "Known Splicing Events:"
        (pyLines "Total splicing  Events:  100\nKnown Splicing Events:   40")).map
        (fun n => (n : ℚ)) ∧
    dictFind? (extractFields "Total splicing  Events:  100\nKnown Splicing Events:   40")
        "known_splicing_events" = some 40 :=
  ⟨(claim_C2 "Total splicing  Events:  100\nKnown Splicing Events:   40").1
      ("known_splicing_events", "Known Splicing Events:") (by decide),
   by decide⟩

/-- C3 (counterexample): the claim "if the group's total and a part are
present, a pct key is stored" is false when the total is zero: nothing is
stored because the computation aborts with `ZeroDivisionError`. -/
theorem claim_C3_counterexample :
    computePcts (extractFields
        "Total splicing  Events:   0\nPartial Novel Splicing Events:  0") =
      Except.error PyErr.zeroDivisionError := by
  decide

/-- C3 (amended): whenever the derived-metric block completes (which requires
each total that has a present part to be nonzero), each group with its total
present stores `part / total * 100` under the part's `_pct` key for every
present part, and a group whose total is absent contributes no `_pct` keys at
all. -/
theorem claim_C3 (text : String) (d' : JRecord)
    (h : computePcts (extractFields text) = Except.ok d') :
    (∀ pp ∈ eventParts, ∀ t v : ℚ,
        dictFind? (extractFields text) "total_splicing_events" = some t →
        dictFind? (extractFields text) pp.1 = some v →
        dictFind? d' pp.2 = some (v / t * 100))
    ∧ (dictFind? (extractFields text) "total_splicing_events" = none →
        ∀ pp ∈ eventParts, dictFind? d' pp.2 = none)
    ∧ (∀ pp ∈ junctionParts, ∀ t v : ℚ,
        dictFind? (extractFields text) "total_splicing_junctions" = some t →
        dictFind? (extractFields text) pp.1 = some v →
        dictFind? d' pp.2 = some (v / t * 100))
    ∧ (dictFind? (extractFields text) "total_splicing_junctions" = none →
        ∀ pp ∈ junctionParts, dictFind? d' pp.2 = none) := by
  cases hd1 : groupPcts (extractFields text) "total_splicing_events" eventParts with
  | error e =>
    simp only [computePcts, hd1] at h
    exact Except.noConfusion h
  | ok d1 =>
    simp only [computePcts, hd1] at h
    have hjpres : ∀ k, (∀ qq ∈ junctionParts, k ≠ qq.2) →
        dictFind? d' k = dictFind? d1 k :=
      fun k hk => groupPcts_find_preserve d1 d' _ junctionParts h k hk
    have hepres : ∀ k, (∀ qq ∈ eventParts, k ≠ qq.2) →
        dictFind? d1 k = dictFind? (extractFields text) k :=
      fun k hk => groupPcts_find_preserve _ d1 _ eventParts hd1 k hk
    refine ⟨?_, ?_, ?_, ?_⟩
    · intro pp hpp t v ht hv
      rw [hjpres pp.2
        ((show ∀ pp ∈ eventParts, ∀ qq ∈ junctionParts, pp.2 ≠ qq.2 by decide) pp hpp)]
      rw [groupPcts, ht] at hd1
      exact pctFold_find_pct t eventParts _ d1 hd1 (by decide) (by decide) pp hpp v hv
    · intro hnone pp hpp
      rw [groupPcts, hnone] at hd1
      injection hd1 with hd1
      subst hd1
      rw [hjpres pp.2
        ((show ∀ pp ∈ eventParts, ∀ qq ∈ junctionParts, pp.2 ≠ qq.2 by decide) pp hpp)]
      exact extract_find_none text pp.2
        ((show ∀ pp ∈ eventParts, pp.2 ∉ junctionRegexes.map Prod.fst by decide) pp hpp)
    · intro pp hpp t v ht hv
      have ht1 : dictFind? d1 "total_splicing_junctions" = some t := by
        rw [hepres _ (by decide)]; exact ht
      have hv1 : dictFind? d1 pp.1 = some v := by
        rw [hepres pp.1
          ((show ∀ pp ∈ junctionParts, ∀ qq ∈ eventParts, pp.1 ≠ qq.2 by decide) pp hpp)]
        exact hv
      rw [groupPcts, ht1] at h
      exact pctFold_find_pct t junctionParts d1 d' h (by decide) (by decide) pp hpp v hv1
    · intro hnone pp hpp
      have ht1 : dictFind? d1 "total_splicing_junctions" = none := by
        rw [hepres _ (by decide)]; exact hnone
      rw [groupPcts, ht1] at h
      injection h with h
      subst h
      rw [hepres pp.2
        ((show ∀ pp ∈ junctionParts, ∀ qq ∈ eventParts, pp.2 ≠ qq.2 by decide) pp hpp)]
      exact extract_find_none text pp.2
        ((show ∀ pp ∈ junctionParts, pp.2 ∉ junctionRegexes.map Prod.fst by decide) pp hpp)

/-- C3 witness: `total_splicing_events = 100` and `known_splicing_events =
40` give `known_splicing_events_pct = 40 / 100 * 100`, which is `40`. -/
theorem claim_C3_witness :
    ∃ d' : JRecord,
      computePcts (extractFields
          "Total splicing  Events: 100\nKnown Splicing Events: 40") =
        Except.ok d' ∧
      dictFind? d' "known_splicing_events_pct" = some ((40 : ℚ) / 100 * 100) ∧
      (40 : ℚ) / 100 * 100 = 40 := by
  have h100 : dictFind?
      (extractFields "Total splicing  Events: 100\nKnown Splicing Events: 40")
      "total_splicing_events" = some 100 := by decide
  rcases pctFold_ok_of_ne 100 (by norm_num) eventParts
      (extractFields "Total splicing  Events: 100\nKnown Splicing Events: 40") with ⟨d1, hd1⟩
  have hg1 : groupPcts
      (extractFields "Total splicing  Events: 100\nKnown Splicing Events: 40")
      "total_splicing_events" eventParts = Except.ok d1 := by
    simp only [groupPcts, h100]
    exact hd1
  have hjn : dictFind? d1 "total_splicing_junctions" = none := by
    rw [pctFold_find_preserve 100 eventParts _ d1 hd1 _ (by decide)]
    decide
  have hcp : computePcts
      (extractFields "Total splicing  Events: 100\nKnown Splicing Events: 40") =
      Except.ok d1 := by
    simp only [computePcts, hg1]
    simp only [groupPcts, hjn]
  refine ⟨d1, hcp, ?_, by norm_num⟩
  exact (claim_C3 _ d1 hcp).1 ("known_splicing_events", "known_splicing_events_pct")
    (by decide) 100 40 h100 (by decide)

/-- C4 (counterexample): the claim quantifies over every tab-delimited input,
but a data row with more tokens than the header makes `headers[i]` raise
`IndexError`: nothing is stored and the parse aborts. -/
theorem claim_C4_counterexample :
    parse_selfsm (fun s _ => s) "" "A\tB\nX\t1\t2" true =
      Except.error PyErr.indexError := by
  decide

/-- C4 (amended): for every input whose data rows have at most as many tokens
as the header row, `parse_selfsm` succeeds and returns exactly the dataset
described by the spec (first token cleaned into the key and excluded from the
values, every remaining token stored under its header name as a parsed float
or, on conversion failure, the literal string); `"NA"` always survives as the
string `"NA"`, and the spec's concrete example holds. -/
theorem claim_C4 (clean : String → String → String) (root text : String)
    (hide : Bool) (h : rowLenOk text = true) :
    (∃ h', parse_selfsm clean root text hide =
        Except.ok (specParse_selfsm clean root text, h'))
    ∧ floatOrStr "NA" = PyVal.str "NA"
    ∧ parse_selfsm (fun s _ => s) "" "SEQ_ID\tFREEMIX\nSample1\t0.02\n" true =
        Except.ok ([("Sample1", [("FREEMIX", PyVal.num 0.02)])], true) :=
  ⟨⟨hide && !(fileTriggers text), parse_selfsm_ok clean root text hide h⟩,
   by decide, by with_unfolding_all decide⟩

/-- C4 witness: the spec's example input satisfies the row-length condition
and parses to its own spec-side description. -/
theorem claim_C4_witness :
    rowLenOk "SEQ_ID\tFREEMIX\nSample1\t0.02\n" = true ∧
    ∃ h', parse_selfsm (fun s _ => s) "" "SEQ_ID\tFREEMIX\nSample1\t0.02\n" true =
      Except.ok (specParse_selfsm (fun s _ => s) "" "SEQ_ID\tFREEMIX\nSample1\t0.02\n", h') :=
  ⟨by decide,
   (claim_C4 (fun s _ => s) "" "SEQ_ID\tFREEMIX\nSample1\t0.02\n" true (by decide)).1⟩

/-- C5 (counterexample): the claim asserts that both modules emit exactly one
duplicate diagnostic per collision; the junction module emits none.  Two
files defining sample `"X"` end with one entry holding the second file's
values and a log containing no duplicate diagnostic at all. -/
theorem claim_C5_counterexample :
    junction_parse_reports
        [("X", "Known Splicing Events: 1"), ("X", "Known Splicing Events: 2")] =
      Except.ok ⟨[("X", [("known_splicing_events", 2)])],
        [LogEvent.foundReports 1],
        some ("multiqc_rseqc_junction_annotation", [("X", [("known_splicing_events", 2)])]),
        ["Junction Annotation"]⟩
    ∧ ([LogEvent.foundReports 1].filter LogEvent.isDup) = [] := by
  exact ⟨by decide, by decide⟩

/-- C5 (amended): on a sample-name collision both modules keep exactly one
entry holding the later record (last-write-wins); the verifybamid module
emits exactly one duplicate diagnostic per collision, while the junction
module emits no duplicate diagnostic ever. -/
theorem claim_C5 :
    (∀ r₁ r₂ : VRecord,
        mergeSamples (mergeSamples ([], []) [("X", r₁)]) [("X", r₂)] =
          ([("X", r₂)], [LogEvent.duplicateSample "X"]))
    ∧ (∀ (name : String) (d₁ d₂ : JRecord), 0 < d₁.length → 0 < d₂.length →
        junctionStore (junctionStore [] name d₁) name d₂ = [(name, d₂)])
    ∧ (∀ (files : List (String × String)) (r : JunctionResult),
        junction_parse_reports files = Except.ok r →
        r.logs.filter LogEvent.isDup = []) := by
  refine ⟨?_, ?_, ?_⟩
  · intro r₁ r₂
    simp [mergeSamples, dictInsert]
  · intro name d₁ d₂ h₁ h₂
    rw [junctionStore, if_pos h₂, junctionStore, if_pos h₁, dictInsert_nil]
    simp [dictInsert]
  · intro files r h
    rcases junction_parse_reports_shape files r h with ⟨_, hlogs, _, _⟩ | ⟨_, hlogs, _, _⟩ <;>
      rw [hlogs] <;> simp [LogEvent.isDup]

/-- C5 witness: the aggregator facts at concrete records, and a concrete
junction run whose log holds no duplicate diagnostic. -/
theorem claim_C5_witness :
    mergeSamples (mergeSamples ([], []) [("X", [("FREEMIX", PyVal.num 1)])])
        [("X", [("FREEMIX", PyVal.num 2)])] =
      ([("X", [("FREEMIX", PyVal.num 2)])], [LogEvent.duplicateSample "X"])
    ∧ junctionStore (junctionStore [] "X" [("a", (1 : ℚ))]) "X" [("a", 2)] =
        [("X", [("a", 2)])]
    ∧ (⟨[("X", [("known_splicing_events", 1)])], [LogEvent.foundReports 1],
          some ("multiqc_rseqc_junction_annotation",
            [("X", [("known_splicing_events", 1)])]),
          ["Junction Annotation"]⟩ : JunctionResult).logs.filter LogEvent.isDup = [] :=
  ⟨claim_C5.1 _ _,
   claim_C5.2.1 "X" _ _ (by decide) (by decide),
   claim_C5.2.2 [("X", "Known Splicing Events: 1")] _ (by decide)⟩

/-- C6: in both modules an empty final dataset yields the non-fatal
`UserWarning` "nothing found" signal — distinct from every hard error — and
nothing is persisted or rendered.  (The junction module's signal lives in the
RSeQC parent module, which is not under `src/` and is modelled from the spec
in `junctionModuleRun`; the skip of persisting and rendering is the
submodule's own `if len(...) > 0` guard.) -/
theorem claim_C6 :
    (∀ (files : List (String × String)) (r : JunctionResult),
        junction_parse_reports files = Except.ok r → r.data = [] →
        junctionModuleRun files = Except.error PyErr.userWarning ∧
          r.persisted = none ∧ r.sections = [] ∧ r.logs = [])
    ∧ (∀ (clean : String → String → String) (ignore : String → Bool)
        (files : List (String × String)) (st : VState),
        verifyCollect clean files = Except.ok st →
        st.data.filter (fun p => !ignore p.1) = [] →
        verifybamid_init clean ignore files = Except.error PyErr.userWarning)
    ∧ (PyErr.userWarning ≠ PyErr.zeroDivisionError ∧
        PyErr.userWarning ≠ PyErr.indexError ∧
        PyErr.userWarning ≠ PyErr.keyError) := by
  refine ⟨?_, ?_, by decide⟩
  · intro files r h hdata
    rcases junction_parse_reports_shape files r h with ⟨hlen, _, _, _⟩ | ⟨_, hl, hp, hsec⟩
    · rw [hdata] at hlen
      exact absurd hlen (by simp)
    · refine ⟨?_, hp, hsec, hl⟩
      simp only [junctionModuleRun, h]
      rw [if_pos hdata]
  · intro clean ignore files st hst hfilt
    simp only [verifybamid_init, hst]
    rw [if_pos (by rw [hfilt]; rfl)]

/-- C6 witness: with no discovered files both modules signal the empty-abort
`UserWarning`, and the junction result carries no persisted file and no
section. -/
theorem claim_C6_witness :
    junction_parse_reports ([] : List (String × String)) =
        Except.ok ⟨[], [], none, []⟩
    ∧ junctionModuleRun ([] : List (String × String)) =
        Except.error PyErr.userWarning
    ∧ verifybamid_init (fun s _ => s) (fun _ => false) [] =
        Except.error PyErr.userWarning := by
  refine ⟨by decide, ?_, ?_⟩
  · exact (claim_C6.1 [] ⟨[], [], none, []⟩ (by decide) rfl).1
  · exact claim_C6.2.1 (fun s _ => s) (fun _ => false) [] ⟨[], true, []⟩ rfl rfl

/-- C7 (counterexample): the claim says the visibility flag becomes true
after any row whose column literally named `"CHIP"` holds a value other than
`"NA"`; but the cell loop skips index 0, so a first column named `"CHIP"`
never flips the flag: here the `CHIP` column holds `"X"` yet the columns stay
hidden. -/
theorem claim_C7_counterexample :
    verifyCollect (fun s _ => s) [("r", "CHIP\tA\nX\tNA")] =
      Except.ok ⟨[("X", [("A", PyVal.str "NA")])], true, []⟩ := by
  decide

/-- C7 (amended): the chip-columns-visibility flag (`hide = true` means the
claim's "false"/hidden state) is fully characterised by the trigger "some
row's `CHIP`-named column other than the first holds a value ≠ `"NA"`": it
stays hidden when no header names `CHIP` at all, and once visible it never
reverts during the rest of the invocation (so it flips at most once). -/
theorem claim_C7 :
    (∀ (clean : String → String → String) (files : List (String × String))
        (st : VState), verifyCollect clean files = Except.ok st →
        st.hide = !(files.any (fun f => fileTriggers f.2)))
    ∧ (∀ (clean : String → String → String) (files : List (String × String))
        (st : VState), verifyCollect clean files = Except.ok st →
        (∀ f ∈ files, "CHIP" ∉ headerOf f.2) → st.hide = true)
    ∧ (∀ (clean : String → String → String) (st st' : VState)
        (files : List (String × String)), st.hide = false →
        verifyCollectFrom clean st files = Except.ok st' → st'.hide = false) := by
  refine ⟨?_, ?_, ?_⟩
  · intro clean files st h
    have := verifyCollectFrom_hide clean files _ st h
    simpa using this
  · intro clean files st h hnone
    have h1 := verifyCollectFrom_hide clean files _ st h
    have h2 : files.any (fun f => fileTriggers f.2) = false := by
      rw [List.any_eq_false]
      intro f hf
      rw [fileTriggers_false_of_no_chip f.2 (hnone f hf)]
      simp
    rw [h1, h2]
    rfl
  · intro clean st st' files hfalse h
    rw [verifyCollectFrom_hide clean files st st' h, hfalse]
    rfl

/-- C7 witness: a file whose second column is headed `CHIP` with value `5`
makes the final flag visible, matching the trigger characterisation. -/
theorem claim_C7_witness :
    (⟨[("S1", [("CHIP", PyVal.num 5)])], false, []⟩ : VState).hide =
      !([("r", "SEQ_ID\tCHIP\nS1\t5")].any (fun f => fileTriggers f.2)) :=
  claim_C7.1 (fun s _ => s) [("r", "SEQ_ID\tCHIP\nS1\t5")]
    ⟨[("S1", [("CHIP", PyVal.num 5)])], false, []⟩ (by with_unfolding_all decide)

/-- C8: whenever the detail table is built, each of the five NA-sensitive
columns (`FREE_RH`, `FREE_RA`, `DPREF`, `RDPHET`, `RDPALT`) gets a single
hidden flag computed once over the full dataset, and that flag is true
exactly when every record holds the literal string `"NA"` for that column. -/
theorem claim_C8 (hide : Bool) (data : VDataset) (hs : VBHeaders)
    (h : verifybamid_table hide data = Except.ok hs) :
    (hs.free_rh_hidden = true ↔
        ∀ p ∈ data, dictFind? p.2 "FREE_RH" = some (PyVal.str "NA"))
    ∧ (hs.free_ra_hidden = true ↔
        ∀ p ∈ data, dictFind? p.2 "FREE_RA" = some (PyVal.str "NA"))
    ∧ (hs.dpref_hidden = true ↔
        ∀ p ∈ data, dictFind? p.2 "DPREF" = some (PyVal.str "NA"))
    ∧ (hs.rdphet_hidden = true ↔
        ∀ p ∈ data, dictFind? p.2 "RDPHET" = some (PyVal.str "NA"))
    ∧ (hs.rdpalt_hidden = true ↔
        ∀ p ∈ data, dictFind? p.2 "RDPALT" = some (PyVal.str "NA")) := by
  cases h1 : allEq data "RG" (PyVal.str "ALL") with
  | error e => simp only [verifybamid_table, h1] at h; exact Except.noConfusion h
  | ok rg =>
  cases h2 : allEq data "FREE_RH" (PyVal.str "NA") with
  | error e => simp only [verifybamid_table, h1, h2] at h; exact Except.noConfusion h
  | ok frh =>
  cases h3 : allEq data "FREE_RA" (PyVal.str "NA") with
  | error e => simp only [verifybamid_table, h1, h2, h3] at h; exact Except.noConfusion h
  | ok fra =>
  cases h4 : allEq data "DPREF" (PyVal.str "NA") with
  | error e => simp only [verifybamid_table, h1, h2, h3, h4] at h; exact Except.noConfusion h
  | ok dp =>
  cases h5 : allEq data "RDPHET" (PyVal.str "NA") with
  | error e =>
    simp only [verifybamid_table, h1, h2, h3, h4, h5] at h
    exact Except.noConfusion h
  | ok rh =>
  cases h6 : allEq data "RDPALT" (PyVal.str "NA") with
  | error e =>
    simp only [verifybamid_table, h1, h2, h3, h4, h5, h6] at h
    exact Except.noConfusion h
  | ok ra =>
  simp only [verifybamid_table, h1, h2, h3, h4, h5, h6] at h
  injection h with h
  subst h
  exact ⟨allEq_true_iff _ _ data frh h2, allEq_true_iff _ _ data fra h3,
    allEq_true_iff _ _ data dp h4, allEq_true_iff _ _ data rh h5,
    allEq_true_iff _ _ data ra h6⟩

/-- C8 witness: a one-record dataset with all six keys, where `FREE_RH` is
`"NA"` (so its column is hidden) and `RDPALT` is numeric. -/
theorem claim_C8_witness :
    ((⟨true, true, true, true, true, true, false⟩ : VBHeaders).free_rh_hidden = true ↔
      ∀ p ∈ [("S", [("RG", PyVal.str "ALL"), ("FREE_RH", PyVal.str "NA"),
          ("FREE_RA", PyVal.str "NA"), ("DPREF", PyVal.str "NA"),
          ("RDPHET", PyVal.str "NA"), ("RDPALT", PyVal.num 3)])],
        dictFind? p.2 "FREE_RH" = some (PyVal.str "NA")) :=
  (claim_C8 true
      [("S", [("RG", PyVal.str "ALL"), ("FREE_RH", PyVal.str "NA"),
          ("FREE_RA", PyVal.str "NA"), ("DPREF", PyVal.str "NA"),
          ("RDPHET", PyVal.str "NA"), ("RDPALT", PyVal.num 3)])]
      ⟨true, true, true, true, true, true, false⟩ (by decide)).1

/-- C9: a data row with fewer tokens than the header parses without error
into a record covering exactly the row's tokens (each stored under its header
name); the row is not skipped, and (for a duplicate-free header) the missing
trailing columns are simply absent from the record — no `NA` padding. -/
theorem claim_C9 (clean : String → String → String) (root text : String)
    (hide : Bool) (hl rl : List Char)
    (hsplit : pySplitlines text.toList = [hl, rl])
    (hlen : (splitTab rl).length < (splitTab hl).length) :
    (∃ h', parse_selfsm clean root text hide = Except.ok
        ([(clean ((splitTab rl).headD "") root,
           specRowRecord (splitTab hl) (splitTab rl))], h'))
    ∧ ((splitTab hl).Nodup →
        specRowRecord (splitTab hl) (splitTab rl) =
          (((splitTab hl).zip (splitTab rl)).drop 1).map
            (fun p => (p.1, floatOrStr p.2)))
    ∧ ((splitTab hl).Nodup →
        ∀ hname ∈ (splitTab hl).drop (splitTab rl).length,
          dictFind? (specRowRecord (splitTab hl) (splitTab rl)) hname = none) := by
  have hsplit2 : pySplitlines text.data = [hl, rl] := hsplit
  have hmap : ((((splitTab hl).zip (splitTab rl)).drop 1).map Prod.fst) =
      (((splitTab hl).take (splitTab rl).length).drop 1) := by
    rw [List.map_drop, map_fst_zip_take]
  have hrec : (splitTab hl).Nodup →
      specRowRecord (splitTab hl) (splitTab rl) =
        (((splitTab hl).zip (splitTab rl)).drop 1).map
          (fun p => (p.1, floatOrStr p.2)) := by
    intro hnd
    have hkeys : ((((splitTab hl).zip (splitTab rl)).drop 1).map Prod.fst).Nodup := by
      rw [hmap]
      exact ((List.drop_sublist 1 _).trans (List.take_sublist _ _)).nodup hnd
    rw [specRowRecord, foldl_dictInsert_fresh _ [] hkeys (fun p _ => rfl),
        List.nil_append]
  refine ⟨?_, hrec, ?_⟩
  · refine ⟨hide && !([rl].any (fun l =>
      (((splitTab hl).zip (splitTab l)).drop 1).any
        fun p => p.1 == "CHIP" && p.2 != "NA")), ?_⟩
    simp only [parse_selfsm, hsplit, hsplit2]
    rw [parseLines_ok clean root (splitTab hl) [rl] [] hide
      (fun l hlmem => by rw [List.mem_singleton.mp hlmem]; exact le_of_lt hlen)]
    rw [List.foldl_cons, List.foldl_nil, dictInsert_nil]
  · intro hnd hname hmem
    rw [hrec hnd]
    apply dictFind?_eq_none_of_not_mem
    rw [show ((((splitTab hl).zip (splitTab rl)).drop 1).map
          (fun p => (p.1, floatOrStr p.2))).map Prod.fst =
        (((splitTab hl).zip (splitTab rl)).drop 1).map Prod.fst by
      rw [List.map_map]; rfl]
    rw [hmap]
    intro hcontra
    have h1 : hname ∈ (splitTab hl).take (splitTab rl).length :=
      (List.drop_sublist 1 _).subset hcontra
    have hdisj := List.disjoint_of_nodup_append
      (by rw [List.take_append_drop]; exact hnd :
        ((splitTab hl).take (splitTab rl).length ++
          (splitTab hl).drop (splitTab rl).length).Nodup)
    exact hdisj h1 hmem

/-- C9 witness: header `A, B, C` with a two-token row `X, 1`: the record
covers only column `B`, the trailing column `C` is absent. -/
theorem claim_C9_witness :
    ∃ h', parse_selfsm (fun s _ => s) "" "A\tB\tC\nX\t1" true = Except.ok
      ([((fun s _ => s) ((splitTab "X\t1".toList).headD "") "",
         specRowRecord (splitTab "A\tB\tC".toList) (splitTab "X\t1".toList))], h') :=
  (claim_C9 (fun s _ => s) "" "A\tB\tC\nX\t1" true "A\tB\tC".toList "X\t1".toList
    (by decide) (by decide)).1

/-- C10: building the detail table succeeds exactly when every record of the
dataset contains all six unconditionally-looked-up keys (`RG`, `FREE_RH`,
`FREE_RA`, `DPREF`, `RDPHET`, `RDPALT`); otherwise emission fails, and the
failure is precisely the key-lookup error. -/
theorem claim_C10 (hide : Bool) (data : VDataset) :
    ((∃ hs, verifybamid_table hide data = Except.ok hs) ↔
      ∀ p ∈ data, ∀ k ∈ vbRequiredKeys, (dictFind? p.2 k).isSome)
    ∧ (∀ e, verifybamid_table hide data = Except.error e → e = PyErr.keyError) := by
  constructor
  · constructor
    · rintro ⟨hs, h⟩ p hp k hk
      cases h1 : allEq data "RG" (PyVal.str "ALL") with
      | error e => simp only [verifybamid_table, h1] at h; exact Except.noConfusion h
      | ok rg =>
      cases h2 : allEq data "FREE_RH" (PyVal.str "NA") with
      | error e => simp only [verifybamid_table, h1, h2] at h; exact Except.noConfusion h
      | ok frh =>
      cases h3 : allEq data "FREE_RA" (PyVal.str "NA") with
      | error e =>
        simp only [verifybamid_table, h1, h2, h3] at h
        exact Except.noConfusion h
      | ok fra =>
      cases h4 : allEq data "DPREF" (PyVal.str "NA") with
      | error e =>
        simp only [verifybamid_table, h1, h2, h3, h4] at h
        exact Except.noConfusion h
      | ok dp =>
      cases h5 : allEq data "RDPHET" (PyVal.str "NA") with
      | error e =>
        simp only [verifybamid_table, h1, h2, h3, h4, h5] at h
        exact Except.noConfusion h
      | ok rh =>
      cases h6 : allEq data "RDPALT" (PyVal.str "NA") with
      | error e =>
        simp only [verifybamid_table, h1, h2, h3, h4, h5, h6] at h
        exact Except.noConfusion h
      | ok ra =>
      simp only [vbRequiredKeys, List.mem_cons, List.not_mem_nil, or_false] at hk
      rcases hk with rfl | rfl | rfl | rfl | rfl | rfl
      · exact allEq_ok_mem _ _ data rg h1 p hp
      · exact allEq_ok_mem _ _ data frh h2 p hp
      · exact allEq_ok_mem _ _ data fra h3 p hp
      · exact allEq_ok_mem _ _ data dp h4 p hp
      · exact allEq_ok_mem _ _ data rh h5 p hp
      · exact allEq_ok_mem _ _ data ra h6 p hp
    · intro hall
      rcases allEq_isOk "RG" (PyVal.str "ALL") data
        (fun p hp => hall p hp "RG" (by decide)) with ⟨rg, h1⟩
      rcases allEq_isOk "FREE_RH" (PyVal.str "NA") data
        (fun p hp => hall p hp "FREE_RH" (by decide)) with ⟨frh, h2⟩
      rcases allEq_isOk "FREE_RA" (PyVal.str "NA") data
        (fun p hp => hall p hp "FREE_RA" (by decide)) with ⟨fra, h3⟩
      rcases allEq_isOk "DPREF" (PyVal.str "NA") data
        (fun p hp => hall p hp "DPREF" (by decide)) with ⟨dp, h4⟩
      rcases allEq_isOk "RDPHET" (PyVal.str "NA") data
        (fun p hp => hall p hp "RDPHET" (by decide)) with ⟨rh, h5⟩
      rcases allEq_isOk "RDPALT" (PyVal.str "NA") data
        (fun p hp => hall p hp "RDPALT" (by decide)) with ⟨ra, h6⟩
      exact ⟨⟨rg, hide, frh, fra, dp, rh, ra⟩,
        by simp only [verifybamid_table, h1, h2, h3, h4, h5, h6]⟩
  · intro e h
    cases h1 : allEq data "RG" (PyVal.str "ALL") with
    | error e1 =>
      simp only [verifybamid_table, h1] at h
      injection h with h2
      subst h2
      exact allEq_error_eq _ _ data e1 h1
    | ok rg =>
    cases h2 : allEq data "FREE_RH" (PyVal.str "NA") with
    | error e1 =>
      simp only [verifybamid_table, h1, h2] at h
      injection h with h2'
      subst h2'
      exact allEq_error_eq _ _ data e1 h2
    | ok frh =>
    cases h3 : allEq data "FREE_RA" (PyVal.str "NA") with
    | error e1 =>
      simp only [verifybamid_table, h1, h2, h3] at h
      injection h with h3'
      subst h3'
      exact allEq_error_eq _ _ data e1 h3
    | ok fra =>
    cases h4 : allEq data "DPREF" (PyVal.str "NA") with
    | error e1 =>
      simp only [verifybamid_table, h1, h2, h3, h4] at h
      injection h with h4'
      subst h4'
      exact allEq_error_eq _ _ data e1 h4
    | ok dp =>
    cases h5 : allEq data "RDPHET" (PyVal.str "NA") with
    | error e1 =>
      simp only [verifybamid_table, h1, h2, h3, h4, h5] at h
      injection h with h5'
      subst h5'
      exact allEq_error_eq _ _ data e1 h5
    | ok rh =>
    cases h6 : allEq data "RDPALT" (PyVal.str "NA") with
    | error e1 =>
      simp only [verifybamid_table, h1, h2, h3, h4, h5, h6] at h
      injection h with h6'
      subst h6'
      exact allEq_error_eq _ _ data e1 h6
    | ok ra =>
    simp only [verifybamid_table, h1, h2, h3, h4, h5, h6] at h
    exact Except.noConfusion h

/-- C10 witness: a record holding only `RG` misses the other required keys,
so table emission fails, and the failure is the key-lookup error. -/
theorem claim_C10_witness :
    ((∃ hs, verifybamid_table true [("S", [("RG", PyVal.str "ALL")])] =
        Except.ok hs) ↔
      ∀ p ∈ [("S", [("RG", PyVal.str "ALL")])], ∀ k ∈ vbRequiredKeys,
        (dictFind? p.2 k).isSome)
    ∧ PyErr.keyError = PyErr.keyError :=
  ⟨(claim_C10 true [("S", [("RG", PyVal.str "ALL")])]).1,
   (claim_C10 true [("S", [("RG", PyVal.str "ALL")])]).2 PyErr.keyError (by decide)⟩

end MultiQC
